import Mathlib

/-!
Shallow embedding of the `prospector` backend core (src/backend/main.py):
the visibility resolver (`GET /dpe`), the status-overlay mutator
(`POST /dpe/{id}/status`) and the greedy tour builder (`POST /route/auto`).

Modelling conventions:
* geometries are an abstract type `γ`; the PostGIS predicates `ST_Contains`
  and `ST_Intersects` are Bool-valued fields of the database state;
* SQL tables are lists of rows; a SQL join is a nested list bind filtered by
  the WHERE clause; `ORDER BY` is an insertion sort on the sort key;
* numeric columns (`surface_m2`, `latitude`, `longitude`) are rationals,
  nullable ones are `Option`; SQL three-valued comparison against NULL
  yields false in a WHERE clause, which the `sqlGeQ`/`sqlLeQ` helpers mirror;
* timestamps are abstract `Int` ticks;
* an HTTP 404 is `Err.notFound`, an HTTP 400 is `Err.badRequest`; the
  psycopg connection context commits only on success, so an endpoint that
  raises leaves the database unchanged — mutating endpoints therefore
  return the (possibly unchanged) state together with the response.
-/

-- ---------------------------------------------------------------------------
-- Constants (main.py lines 43-49)
-- ---------------------------------------------------------------------------

def DEV_USER_ID : Int := 1

def TOUR_MAX : Nat := 8

def POOL_MAX : Nat := 50

-- ---------------------------------------------------------------------------
-- Errors
-- ---------------------------------------------------------------------------

/-- `HTTPException`: status 404 is `notFound`, status 400 is `badRequest`. -/
inductive Err : Type where
  | notFound (detail : String) : Err
  | badRequest (detail : String) : Err
deriving DecidableEq, Repr

-- ---------------------------------------------------------------------------
-- Data model (tables)
-- ---------------------------------------------------------------------------

/-- Row of the `users` table (the columns the core reads). -/
structure User where
  id : Int
  agency_id : Int
  min_surface_m2 : Option Rat
  max_surface_m2 : Option Rat
deriving DecidableEq, Repr

/-- Row of the `user_territories` table (an agent's micro-territory). -/
structure UserTerritory (γ : Type) where
  user_id : Int
  agency_id : Int
  geom : γ
deriving DecidableEq, Repr

/-- Row of the `agency_zones` link table. -/
structure AgencyZone where
  agency_id : Int
  zone_id : Int
deriving DecidableEq, Repr

/-- Row of the `zones` table (an agency's operating region). -/
structure Zone (γ : Type) where
  id : Int
  geom : γ
deriving DecidableEq, Repr

/-- Row of the shared `dpe_targets` catalog. -/
structure DpeTarget (γ : Type) where
  id : Int
  address : String
  surface_m2 : Option Rat
  diagnostic_date : Option Int
  latitude : Option Rat
  longitude : Option Rat
  geom : γ
deriving DecidableEq, Repr

/-- Row of the `agency_targets` overlay table: per-(agency, target)
workflow state. -/
structure AgencyTarget where
  agency_id : Int
  dpe_target_id : Int
  status : String
  next_action_at : Option Int
  updated_at : Int
deriving DecidableEq, Repr

/-- The database state, together with the spatial predicate provider
(PostGIS `ST_Contains` / `ST_Intersects`) over an abstract geometry type. -/
structure Db (γ : Type) where
  st_contains : γ → γ → Bool
  st_intersects : γ → γ → Bool
  users : List User
  user_territories : List (UserTerritory γ)
  agency_zones : List AgencyZone
  zones : List (Zone γ)
  dpe_targets : List (DpeTarget γ)
  agency_targets : List AgencyTarget

-- ---------------------------------------------------------------------------
-- Request / response payloads
-- ---------------------------------------------------------------------------

/-- Pydantic `DpeStatusUpdate` payload. -/
structure DpeStatusUpdate where
  status : String
  next_action_at : Option Int
deriving DecidableEq, Repr

/-- One element of the `items` list returned by `GET /dpe`. -/
structure DpeItem where
  id : Int
  address : String
  surface : Option Rat
  date : Option Int
  latitude : Option Rat
  longitude : Option Rat
  status : String
  next_action_at : Option Int
deriving DecidableEq, Repr

/-- Response of `POST /dpe/{id}/status`. -/
structure StatusResp where
  id : Int
  status : String
  next_action_at : Option Int
deriving DecidableEq, Repr

/-- The GeoJSON `LineString` emitted as `polyline`. -/
structure Polyline where
  geo_type : String
  coordinates : List (Rat × Rat)
deriving DecidableEq, Repr

/-- Response of `POST /route/auto`. -/
structure RouteResp where
  target_ids_ordered : List Int
  polyline : Option Polyline
deriving DecidableEq, Repr

-- ---------------------------------------------------------------------------
-- Helpers (main.py lines 103-143)
-- ---------------------------------------------------------------------------

/-- `_resolve_user_id`: substitute the dev identity when none is given. -/
def _resolve_user_id (user_id : Option Int) : Int :=
  match user_id with
  | some u => u
  | none => DEV_USER_ID

/-- `SELECT agency_id FROM users WHERE id = %s` + `fetchone()`. -/
def findUser {γ : Type} (db : Db γ) (uid : Int) : Option User :=
  db.users.find? (fun u => u.id == uid)

/-- `_get_user_agency`: agency of the user, 404 "User inconnu" if absent. -/
def _get_user_agency {γ : Type} (db : Db γ) (uid : Int) : Except Err Int :=
  match findUser db uid with
  | none => .error (.notFound "User inconnu")
  | some u => .ok u.agency_id

/-- `_user_has_territory`: does a micro-territory row exist for the user? -/
def _user_has_territory {γ : Type} (db : Db γ) (uid : Int) : Bool :=
  db.user_territories.any (fun ut => ut.user_id == uid)

/-- `_get_primary_agency_zone`:
`SELECT zone_id FROM agency_zones WHERE agency_id = %s ORDER BY zone_id ASC
LIMIT 1` — the least linked zone id, if any. -/
def _get_primary_agency_zone {γ : Type} (db : Db γ) (agency_id : Int) :
    Option Int :=
  match (db.agency_zones.filter (fun az => az.agency_id == agency_id)).map
      (fun az => az.zone_id) with
  | [] => none
  | z :: zs => some (zs.foldl min z)

-- ---------------------------------------------------------------------------
-- ORDER BY: insertion sort on an integer key
-- ---------------------------------------------------------------------------

/-- Insert keeping ascending key order. -/
def insertAscBy {α : Type} (key : α → Int) (a : α) : List α → List α
  | [] => [a]
  | b :: bs => if key a ≤ key b then a :: b :: bs else b :: insertAscBy key a bs

/-- `ORDER BY key ASC`. -/
def sortAscBy {α : Type} (key : α → Int) (l : List α) : List α :=
  l.foldr (insertAscBy key) []

/-- Insert keeping descending key order. -/
def insertDescBy {α : Type} (key : α → Int) (a : α) : List α → List α
  | [] => [a]
  | b :: bs => if key b ≤ key a then a :: b :: bs else b :: insertDescBy key a bs

/-- `ORDER BY key DESC`. -/
def sortDescBy {α : Type} (key : α → Int) (l : List α) : List α :=
  l.foldr (insertDescBy key) []

-- ---------------------------------------------------------------------------
-- The shared WHERE clause of the two core queries
-- ---------------------------------------------------------------------------

/-- SQL `a >= b` on nullable numeric columns: NULL on either side is not
greater-or-equal (three-valued logic collapses to false in WHERE). -/
def sqlGeQ (a b : Option Rat) : Bool :=
  match a, b with
  | some x, some y => decide (y ≤ x)
  | _, _ => false

/-- SQL `a <= b` on nullable numeric columns. -/
def sqlLeQ (a b : Option Rat) : Bool :=
  match a, b with
  | some x, some y => decide (x ≤ y)
  | _, _ => false

/-- The two surface-segmentation conjuncts:
`(u.min_surface_m2 IS NULL OR t.surface_m2 >= u.min_surface_m2) AND
 (u.max_surface_m2 IS NULL OR t.surface_m2 <= u.max_surface_m2)`. -/
def surfaceFilter (u : User) (s : Option Rat) : Bool :=
  (u.min_surface_m2.isNone || sqlGeQ s u.min_surface_m2) &&
  (u.max_surface_m2.isNone || sqlLeQ s u.max_surface_m2)

/-- WHERE clause shared by `GET /dpe` and `POST /route/auto` (the join
conditions and the filters; `route_auto` adds `at.status = 'non_traite'`). -/
def visibleWhere {γ : Type} (db : Db γ) (zone_id uid agency_id : Int)
    (ov : AgencyTarget) (t : DpeTarget γ) (z : Zone γ) (u : User) : Bool :=
  ov.agency_id == agency_id && t.id == ov.dpe_target_id &&
  z.id == zone_id && u.id == uid &&
  db.st_contains z.geom t.geom &&
  db.user_territories.any
    (fun ut => ut.user_id == uid && db.st_intersects ut.geom t.geom) &&
  surfaceFilter u t.surface_m2

/-- The `GET /dpe` join (main.py lines 605-634), before ORDER BY:
`FROM agency_targets at JOIN dpe_targets t ON t.id = at.dpe_target_id
JOIN zones z ON z.id = %s JOIN users u ON u.id = %s WHERE ...`. -/
def dpeQuery {γ : Type} (db : Db γ) (zone_id uid agency_id : Int) :
    List (DpeTarget γ × AgencyTarget) :=
  db.agency_targets.flatMap fun ov =>
    db.dpe_targets.flatMap fun t =>
      db.zones.flatMap fun z =>
        db.users.flatMap fun u =>
          if visibleWhere db zone_id uid agency_id ov t z u then [(t, ov)]
          else []

/-- The `POST /route/auto` join (main.py lines 723-746), before ORDER BY and
LIMIT: the same WHERE clause plus `at.status = 'non_traite'`. -/
def routeQuery {γ : Type} (db : Db γ) (zone_id uid agency_id : Int) :
    List (DpeTarget γ × AgencyTarget) :=
  db.agency_targets.flatMap fun ov =>
    db.dpe_targets.flatMap fun t =>
      db.zones.flatMap fun z =>
        db.users.flatMap fun u =>
          if visibleWhere db zone_id uid agency_id ov t z u &&
              ov.status == "non_traite" then [(t, ov)]
          else []

-- ---------------------------------------------------------------------------
-- GET /dpe (main.py lines 590-651)
-- ---------------------------------------------------------------------------

/-- Shape one joined row into the JSON item of `GET /dpe`. -/
def dpeItemOf {γ : Type} (t : DpeTarget γ) (ov : AgencyTarget) : DpeItem :=
  { id := t.id, address := t.address, surface := t.surface_m2,
    date := t.diagnostic_date, latitude := t.latitude,
    longitude := t.longitude, status := ov.status,
    next_action_at := ov.next_action_at }

/-- `GET /dpe`: the visibility resolver. -/
def get_dpe {γ : Type} (db : Db γ) (user_id : Option Int) :
    Except Err (List DpeItem) :=
  let uid := _resolve_user_id user_id
  match _get_user_agency db uid with
  | .error e => .error e
  | .ok agency_id =>
    if _user_has_territory db uid then
      match _get_primary_agency_zone db agency_id with
      | none => .ok []
      | some zone_id =>
        .ok (sortAscBy (fun r => r.id)
          ((dpeQuery db zone_id uid agency_id).map
            (fun p => dpeItemOf p.1 p.2)))
    else .ok []

-- ---------------------------------------------------------------------------
-- POST /dpe/{id}/status (main.py lines 654-700)
-- ---------------------------------------------------------------------------

/-- The `allowed` list of main.py line 661. -/
def allowedStatuses : List String := ["non_traite", "done", "ignore", "done_repasser"]

/-- `POST /dpe/{dpe_id}/status`: validate, then
`UPDATE agency_targets SET status, next_action_at, updated_at = now()
WHERE agency_id = %s AND dpe_target_id = %s`, 404 when `rowcount = 0`.
On any raised error the transaction is rolled back, so the returned state
is the input state. -/
def update_dpe_status {γ : Type} (db : Db γ) (dpe_id : Int)
    (payload : DpeStatusUpdate) (user_id : Option Int) (now : Int) :
    Db γ × Except Err StatusResp :=
  let uid := _resolve_user_id user_id
  if ¬ allowedStatuses.contains payload.status then
    (db, .error (.badRequest "Statut invalide"))
  else if payload.status == "done_repasser" && payload.next_action_at.isNone then
    (db, .error (.badRequest "next_action_at requis pour done_repasser"))
  else
    let next_action_at :=
      if payload.status == "done_repasser" then payload.next_action_at else none
    match _get_user_agency db uid with
    | .error e => (db, .error e)
    | .ok agency_id =>
      let hit := fun (ov : AgencyTarget) =>
        ov.agency_id == agency_id && ov.dpe_target_id == dpe_id
      if (db.agency_targets.filter hit).isEmpty then
        (db, .error (.notFound "Target absent de l'overlay agence"))
      else
        ({ db with
            agency_targets := db.agency_targets.map (fun ov =>
              if hit ov then
                { ov with
                  status := payload.status
                  next_action_at := next_action_at
                  updated_at := now }
              else ov) },
         .ok { id := dpe_id
               status := payload.status
               next_action_at := next_action_at })

-- ---------------------------------------------------------------------------
-- POST /route/auto (main.py lines 708-784)
-- ---------------------------------------------------------------------------

/-- A candidate point of the tour: `{"id": r[0], "lat": r[1], "lng": r[2]}`. -/
structure RoutePoint where
  id : Int
  lat : Rat
  lng : Rat
deriving DecidableEq, Repr

/-- Squared Euclidean distance in (longitude, latitude) space. -/
def dist2 (a b : RoutePoint) : Rat :=
  let dx := a.lng - b.lng
  let dy := a.lat - b.lat
  dx * dx + dy * dy

/-- The candidate pool: `ORDER BY t.id DESC LIMIT POOL_MAX` applied to the
route query. -/
def routePool {γ : Type} (db : Db γ) (zone_id uid agency_id : Int) :
    List (DpeTarget γ × AgencyTarget) :=
  (sortDescBy (fun p => p.1.id) (routeQuery db zone_id uid agency_id)).take
    POOL_MAX

/-- The fetched rows `(t.id, t.latitude, t.longitude)`. -/
def rowsOf {γ : Type} (db : Db γ) (zone_id uid agency_id : Int) :
    List (Int × Option Rat × Option Rat) :=
  (routePool db zone_id uid agency_id).map
    (fun p => (p.1.id, p.1.latitude, p.1.longitude))

/-- The Python comprehension dropping rows with a NULL coordinate. -/
def pointsOf {γ : Type} (db : Db γ) (zone_id uid agency_id : Int) :
    List RoutePoint :=
  (rowsOf db zone_id uid agency_id).filterMap
    (fun r => match r.2.1, r.2.2 with
      | some la, some ln => some (RoutePoint.mk r.1 la ln)
      | _, _ => none)

/-- The inner `for i in range(1, len(remaining))` scan of main.py lines
771-775, carried as explicit state `(i, best_i, best_d)`: returns the final
`(best_i, best_d)`. -/
def scanLoop (last : RoutePoint) (i best_i : Nat) (best_d : Rat) :
    List RoutePoint → Nat × Rat
  | [] => (best_i, best_d)
  | q :: qs =>
    if dist2 last q < best_d then scanLoop last (i + 1) i (dist2 last q) qs
    else scanLoop last (i + 1) best_i best_d qs

/-- The `while remaining and len(ordered) < TOUR_MAX` loop of main.py lines
767-776, with the list length as fuel (each iteration removes exactly one
remaining candidate, so `remaining.length` steps always suffice). -/
def tourLoop : Nat → List RoutePoint → List RoutePoint → List RoutePoint
  | 0, ordered, _ => ordered
  | _ + 1, ordered, [] => ordered
  | fuel + 1, ordered, r :: rs =>
    if TOUR_MAX ≤ ordered.length then ordered
    else
      match ordered.getLast? with
      | none => ordered
      | some last =>
        let best_i := (scanLoop last 1 0 (dist2 last r) rs).1
        match (r :: rs)[best_i]? with
        | none => ordered
        | some b => tourLoop fuel (ordered ++ [b]) ((r :: rs).eraseIdx best_i)

/-- Lines 764-784: seed with `points[0]`, run the greedy loop, emit ids and
the polyline (present only with at least two coordinates). -/
def route_build (points : List RoutePoint) : RouteResp :=
  match points with
  | [] => { target_ids_ordered := [], polyline := none }
  | p0 :: rest =>
    let ordered := tourLoop rest.length [p0] rest
    let coords := ordered.map (fun p => (p.lng, p.lat))
    { target_ids_ordered := ordered.map (fun p => p.id),
      polyline :=
        if 2 ≤ coords.length then
          some { geo_type := "LineString", coordinates := coords }
        else none }

/-- `POST /route/auto`: the tour builder. -/
def route_auto {γ : Type} (db : Db γ) (user_id : Option Int) :
    Except Err RouteResp :=
  let uid := _resolve_user_id user_id
  match _get_user_agency db uid with
  | .error e => .error e
  | .ok agency_id =>
    if _user_has_territory db uid then
      match _get_primary_agency_zone db agency_id with
      | none => .ok { target_ids_ordered := [], polyline := none }
      | some zone_id =>
        if (rowsOf db zone_id uid agency_id).isEmpty then
          .ok { target_ids_ordered := [], polyline := none }
        else if (pointsOf db zone_id uid agency_id).isEmpty then
          .ok { target_ids_ordered := [], polyline := none }
        else .ok (route_build (pointsOf db zone_id uid agency_id))
    else .ok { target_ids_ordered := [], polyline := none }

-- ---------------------------------------------------------------------------
-- Reference formalisation of the tour heuristic, in the spec's terms:
-- at each step take the not-yet-chosen candidate minimising the squared
-- Euclidean distance from the tour's last point, ties broken in favour of
-- the first-encountered candidate in scan order.
-- ---------------------------------------------------------------------------

/-- Minimum of `dist2 last` over the non-empty pool `r :: rs`. -/
def minDist (last r : RoutePoint) (rs : List RoutePoint) : Rat :=
  (rs.map (dist2 last)).foldl min (dist2 last r)

/-- One reference step: pick the first-encountered candidate attaining the
minimal squared distance, and remove it from the pool. -/
def refStep (last : RoutePoint) :
    List RoutePoint → Option (RoutePoint × List RoutePoint)
  | [] => none
  | r :: rs =>
    let j := (r :: rs).findIdx
      (fun q => decide (dist2 last q = minDist last r rs))
    match (r :: rs)[j]? with
    | none => none
    | some b => some (b, (r :: rs).eraseIdx j)

/-- Repeat the reference step at most `fuel` more times. -/
def refTourAux : Nat → RoutePoint → List RoutePoint → List RoutePoint
  | 0, _, _ => []
  | f + 1, last, rem =>
    match refStep last rem with
    | none => []
    | some (b, rest) => b :: refTourAux f b rest

/-- The reference tour: seed with the first candidate of the pool, then at
most `TOUR_MAX - 1` nearest-neighbour steps. -/
def refTour (pool : List RoutePoint) : List RoutePoint :=
  match pool with
  | [] => []
  | p0 :: rest => p0 :: refTourAux (TOUR_MAX - 1) p0 rest

/-- The candidate pool as claim C2 words it: the visible unprocessed
targets ordered descending by id, truncated to `POOL_MAX`, dropping the
candidates that miss a latitude or a longitude. -/
def refCandidates {γ : Type} (db : Db γ) (zone_id uid agency_id : Int) :
    List RoutePoint :=
  ((sortDescBy (fun p => p.1.id)
      (routeQuery db zone_id uid agency_id)).take POOL_MAX).filterMap
    (fun p => match p.1.latitude, p.1.longitude with
      | some la, some ln => some (RoutePoint.mk p.1.id la ln)
      | _, _ => none)

/-- The whole reference output: the reference tour's target ids in visiting
order, plus — only when the tour has at least two stops — the polyline of
its (longitude, latitude) vertices. -/
def refResponse (pool : List RoutePoint) : RouteResp :=
  let tour := refTour pool
  { target_ids_ordered := tour.map (fun p => p.id)
    polyline :=
      if 2 ≤ tour.length then
        some { geo_type := "LineString"
               coordinates := tour.map (fun p => (p.lng, p.lat)) }
      else none }

-- ---------------------------------------------------------------------------
-- A concrete example state (geometries are small naturals; the region is
-- geometry 100, the micro-territory geometry 200, targets carry 1, 2, 3)
-- ---------------------------------------------------------------------------

/-- Example agent: id 1, agency 10, no surface bounds. -/
def exUser : User :=
  { id := 1, agency_id := 10, min_surface_m2 := none, max_surface_m2 := none }

/-- Example agent with a min-surface bound. -/
def exUserBound : User :=
  { id := 1, agency_id := 10, min_surface_m2 := some 50, max_surface_m2 := none }

/-- Example region of agency 10. -/
def exZone : Zone Nat := { id := 5, geom := 100 }

/-- Example state: the region contains the footprints 1, 2, 3; the agent's
micro-territory intersects footprints 1 and 2; targets 1 and 2 are
unprocessed, target 3 done; target 3 has a NULL surface. -/
def exDb : Db Nat :=
  { st_contains := fun z t => z == 100 && (t == 1 || t == 2 || t == 3)
    st_intersects := fun g t => g == 200 && (t == 1 || t == 2)
    users := [exUser]
    user_territories := [{ user_id := 1, agency_id := 10, geom := 200 }]
    agency_zones := [{ agency_id := 10, zone_id := 5 }]
    zones := [exZone]
    dpe_targets := [
      { id := 1, address := "a", surface_m2 := some 30, diagnostic_date := none
        latitude := some 0, longitude := some 0, geom := 1 },
      { id := 2, address := "b", surface_m2 := some 60, diagnostic_date := none
        latitude := some 1, longitude := some 1, geom := 2 },
      { id := 3, address := "c", surface_m2 := none, diagnostic_date := none
        latitude := some 2, longitude := some 2, geom := 3 }]
    agency_targets := [
      { agency_id := 10, dpe_target_id := 1, status := "non_traite"
        next_action_at := none, updated_at := 0 },
      { agency_id := 10, dpe_target_id := 2, status := "non_traite"
        next_action_at := none, updated_at := 0 },
      { agency_id := 10, dpe_target_id := 3, status := "done"
        next_action_at := none, updated_at := 0 }] }

/-- What `GET /dpe` returns on `exDb` for agent 1. -/
def exItems : List DpeItem := [
  { id := 1, address := "a", surface := some 30, date := none
    latitude := some 0, longitude := some 0, status := "non_traite"
    next_action_at := none },
  { id := 2, address := "b", surface := some 60, date := none
    latitude := some 1, longitude := some 1, status := "non_traite"
    next_action_at := none }]

/-- `exDb` with the agent's micro-territory removed. -/
def exDbNoTerr : Db Nat := { exDb with user_territories := [] }

/-- `exDb` with no users at all. -/
def exDbNoUser : Db Nat := { exDb with users := [] }

/-- `exDb` after marking target 1 done at tick 7. -/
def exDbAfter : Db Nat :=
  { exDb with agency_targets := [
      { agency_id := 10, dpe_target_id := 1, status := "done"
        next_action_at := none, updated_at := 7 },
      { agency_id := 10, dpe_target_id := 2, status := "non_traite"
        next_action_at := none, updated_at := 0 },
      { agency_id := 10, dpe_target_id := 3, status := "done"
        next_action_at := none, updated_at := 0 }] }

/-- What `POST /route/auto` returns on `exDb` for agent 1. -/
def exResp : RouteResp :=
  { target_ids_ordered := [2, 1]
    polyline := some { geo_type := "LineString"
                       coordinates := [(1, 1), (0, 0)] } }

-- ---------------------------------------------------------------------------
-- Generic list lemmas
-- ---------------------------------------------------------------------------

theorem mem_ite_singleton {α : Type} (c : Bool) (b a : α) :
    a ∈ (if c then [b] else []) ↔ c = true ∧ a = b := by
  cases c <;> simp

theorem mem_insertAscBy {α : Type} (key : α → Int) (a x : α) :
    ∀ l : List α, x ∈ insertAscBy key a l ↔ x = a ∨ x ∈ l := by
  intro l
  induction l with
  | nil => simp [insertAscBy]
  | cons b bs ih =>
    by_cases h : key a ≤ key b
    · simp [insertAscBy, h]
    · simp only [insertAscBy, if_neg h, List.mem_cons, ih]
      tauto

theorem mem_sortAscBy {α : Type} (key : α → Int) (x : α) :
    ∀ l : List α, x ∈ sortAscBy key l ↔ x ∈ l := by
  intro l
  induction l with
  | nil => simp [sortAscBy]
  | cons b bs ih =>
    simp only [sortAscBy, List.foldr_cons] at *
    rw [mem_insertAscBy, ih, List.mem_cons]

theorem pairwise_insertAscBy {α : Type} (key : α → Int) (a : α) :
    ∀ l : List α, l.Pairwise (fun x y => key x ≤ key y) →
      (insertAscBy key a l).Pairwise (fun x y => key x ≤ key y) := by
  intro l
  induction l with
  | nil => simp [insertAscBy]
  | cons b bs ih =>
    intro hp
    rcases List.pairwise_cons.mp hp with ⟨hb, hbs⟩
    by_cases h : key a ≤ key b
    · rw [insertAscBy, if_pos h]
      refine List.pairwise_cons.mpr ⟨?_, hp⟩
      intro y hy
      rcases List.mem_cons.mp hy with rfl | hy
      · exact h
      · exact le_trans h (hb y hy)
    · rw [insertAscBy, if_neg h]
      refine List.pairwise_cons.mpr ⟨?_, ih hbs⟩
      intro y hy
      rcases (mem_insertAscBy key a y bs).mp hy with rfl | hy
      · exact le_of_not_le h
      · exact hb y hy

theorem pairwise_sortAscBy {α : Type} (key : α → Int) :
    ∀ l : List α, (sortAscBy key l).Pairwise (fun x y => key x ≤ key y) := by
  intro l
  induction l with
  | nil => simp [sortAscBy]
  | cons b bs ih =>
    simpa [sortAscBy] using pairwise_insertAscBy key b _ ih

theorem filter_singleton_mem {α : Type} {p : α → Bool} {l : List α} {a : α}
    (h : l.filter p = [a]) (x : α) : x ∈ l ∧ p x = true ↔ x = a := by
  constructor
  · intro hx
    have : x ∈ l.filter p := List.mem_filter.mpr hx
    rw [h] at this
    simpa using this
  · intro hx
    have ha : x ∈ l.filter p := by rw [h]; simp [hx]
    exact List.mem_filter.mp ha

-- ---------------------------------------------------------------------------
-- Membership characterisation of the two queries
-- ---------------------------------------------------------------------------

theorem mem_dpeQuery {γ : Type} (db : Db γ) (zone_id uid agency_id : Int)
    (p : DpeTarget γ × AgencyTarget) :
    p ∈ dpeQuery db zone_id uid agency_id ↔
      ∃ ov ∈ db.agency_targets, ∃ t ∈ db.dpe_targets, ∃ z ∈ db.zones,
        ∃ u ∈ db.users,
          visibleWhere db zone_id uid agency_id ov t z u = true ∧
          p = (t, ov) := by
  simp only [dpeQuery, List.mem_flatMap, mem_ite_singleton]

theorem mem_routeQuery {γ : Type} (db : Db γ) (zone_id uid agency_id : Int)
    (p : DpeTarget γ × AgencyTarget) :
    p ∈ routeQuery db zone_id uid agency_id ↔
      ∃ ov ∈ db.agency_targets, ∃ t ∈ db.dpe_targets, ∃ z ∈ db.zones,
        ∃ u ∈ db.users,
          visibleWhere db zone_id uid agency_id ov t z u = true ∧
          ov.status = "non_traite" ∧
          p = (t, ov) := by
  have hmem : ∀ (c : Prop) (inst : Decidable c) (b q : DpeTarget γ × AgencyTarget),
      q ∈ (if c then [b] else []) ↔ c ∧ q = b := by
    intro c inst b q
    by_cases h : c <;> simp [h]
  simp only [routeQuery, List.mem_flatMap, Bool.and_eq_true, beq_iff_eq,
    hmem, and_assoc]

theorem sqlGeQ_eq_true (a b : Option Rat) :
    sqlGeQ a b = true ↔ ∃ x y, a = some x ∧ b = some y ∧ y ≤ x := by
  cases a <;> cases b <;> simp [sqlGeQ]

theorem sqlLeQ_eq_true (a b : Option Rat) :
    sqlLeQ a b = true ↔ ∃ x y, a = some x ∧ b = some y ∧ x ≤ y := by
  cases a <;> cases b <;> simp [sqlLeQ]

theorem surfaceFilter_eq_true (u : User) (s : Option Rat) :
    surfaceFilter u s = true ↔
      (u.min_surface_m2 = none ∨
        ∃ x m, s = some x ∧ u.min_surface_m2 = some m ∧ m ≤ x) ∧
      (u.max_surface_m2 = none ∨
        ∃ x m, s = some x ∧ u.max_surface_m2 = some m ∧ x ≤ m) := by
  simp [surfaceFilter, Bool.and_eq_true, Bool.or_eq_true,
    Option.isNone_iff_eq_none, sqlGeQ_eq_true, sqlLeQ_eq_true]

theorem visibleWhere_eq_true {γ : Type} (db : Db γ)
    (zone_id uid agency_id : Int) (ov : AgencyTarget) (t : DpeTarget γ)
    (z : Zone γ) (u : User) :
    visibleWhere db zone_id uid agency_id ov t z u = true ↔
      ov.agency_id = agency_id ∧ t.id = ov.dpe_target_id ∧
      z.id = zone_id ∧ u.id = uid ∧
      db.st_contains z.geom t.geom = true ∧
      (∃ ut ∈ db.user_territories,
        ut.user_id = uid ∧ db.st_intersects ut.geom t.geom = true) ∧
      surfaceFilter u t.surface_m2 = true := by
  simp [visibleWhere, Bool.and_eq_true, beq_iff_eq, List.any_eq_true,
    and_assoc]

-- ---------------------------------------------------------------------------
-- Folded minimum helpers
-- ---------------------------------------------------------------------------

theorem foldl_min_le_init : ∀ (l : List Rat) (a : Rat), l.foldl min a ≤ a := by
  intro l
  induction l with
  | nil => intro a; simp
  | cons b bs ih =>
    intro a
    calc (b :: bs).foldl min a = bs.foldl min (min a b) := by simp
    _ ≤ min a b := ih (min a b)
    _ ≤ a := min_le_left a b

theorem foldl_min_le_mem :
    ∀ (l : List Rat) (a x : Rat), x ∈ l → l.foldl min a ≤ x := by
  intro l
  induction l with
  | nil => intro a x hx; simp at hx
  | cons b bs ih =>
    intro a x hx
    rcases List.mem_cons.mp hx with rfl | hx
    · calc (x :: bs).foldl min a = bs.foldl min (min a x) := by simp
      _ ≤ min a x := foldl_min_le_init bs (min a x)
      _ ≤ x := min_le_right a x
    · exact ih (min a b) x hx

theorem foldl_min_of_le :
    ∀ (l : List Rat) (a : Rat), (∀ x ∈ l, a ≤ x) → l.foldl min a = a := by
  intro l
  induction l with
  | nil => intro a _; simp
  | cons b bs ih =>
    intro a h
    have hab : min a b = a := min_eq_left (h b (List.mem_cons_self b bs))
    calc (b :: bs).foldl min a = bs.foldl min (min a b) := by simp
    _ = bs.foldl min a := by rw [hab]
    _ = a := ih a (fun x hx => h x (List.mem_cons_of_mem b hx))

theorem foldl_min_attained :
    ∀ (l : List Rat) (a : Rat), l.foldl min a = a ∨ ∃ x ∈ l, l.foldl min a = x := by
  intro l
  induction l with
  | nil => intro a; left; simp
  | cons b bs ih =>
    intro a
    have hstep : (b :: bs).foldl min a = bs.foldl min (min a b) := by simp
    rcases ih (min a b) with h | ⟨x, hx, he⟩
    · rcases min_cases a b with ⟨hm, _⟩ | ⟨hm, _⟩
      · left; rw [hstep, h, hm]
      · right; exact ⟨b, List.mem_cons_self b bs, by rw [hstep, h, hm]⟩
    · right; exact ⟨x, List.mem_cons_of_mem b hx, by rw [hstep, he]⟩

-- ---------------------------------------------------------------------------
-- The inner scan picks the first-encountered minimum
-- ---------------------------------------------------------------------------

theorem scanLoop_fst_lt (last : RoutePoint) :
    ∀ (l : List RoutePoint) (i best_i : Nat) (best_d : Rat), best_i < i →
      (scanLoop last i best_i best_d l).1 < i + l.length := by
  intro l
  induction l with
  | nil =>
    intro i bi bd h
    simpa [scanLoop] using lt_of_lt_of_le h (Nat.le_add_right i 0)
  | cons q qs ih =>
    intro i bi bd h
    rw [scanLoop]
    by_cases hq : dist2 last q < bd
    · rw [if_pos hq]
      have := ih (i + 1) i (dist2 last q) (Nat.lt_succ_self i)
      simpa [Nat.add_assoc, Nat.add_comm 1 qs.length] using this
    · rw [if_neg hq]
      have := ih (i + 1) bi bd (lt_trans h (Nat.lt_succ_self i))
      simpa [Nat.add_assoc, Nat.add_comm 1 qs.length] using this

theorem scanLoop_no_improve (last : RoutePoint) :
    ∀ (l : List RoutePoint) (i best_i : Nat) (best_d : Rat),
      (∀ q ∈ l, best_d ≤ dist2 last q) →
      scanLoop last i best_i best_d l = (best_i, best_d) := by
  intro l
  induction l with
  | nil => intro i bi bd _; rfl
  | cons q qs ih =>
    intro i bi bd h
    rw [scanLoop, if_neg (not_lt.mpr (h q (List.mem_cons_self q qs)))]
    exact ih (i + 1) bi bd (fun p hp => h p (List.mem_cons_of_mem q hp))

theorem scanLoop_improve (last : RoutePoint) :
    ∀ (l : List RoutePoint) (i best_i : Nat) (best_d : Rat),
      (∃ q ∈ l, dist2 last q < best_d) →
      (scanLoop last i best_i best_d l).1 =
        i + l.findIdx
          (fun q => decide (dist2 last q = (l.map (dist2 last)).foldl min best_d)) := by
  intro l
  induction l with
  | nil => intro i bi bd h; simp at h
  | cons q qs ih =>
    intro i bi bd h
    rw [scanLoop]
    by_cases hq : dist2 last q < bd
    · rw [if_pos hq]
      have hminq : min bd (dist2 last q) = dist2 last q :=
        min_eq_right (le_of_lt hq)
      by_cases himp : ∃ p ∈ qs, dist2 last p < dist2 last q
      · have hrec := ih (i + 1) i (dist2 last q) himp
        rcases himp with ⟨p, hp, hplt⟩
        have hMle : (qs.map (dist2 last)).foldl min (dist2 last q) ≤ dist2 last p :=
          foldl_min_le_mem _ _ _ (List.mem_map_of_mem (dist2 last) hp)
        have hne : ¬ (dist2 last q =
            (qs.map (dist2 last)).foldl min (min bd (dist2 last q))) := by
          rw [hminq]
          exact ne_of_gt (lt_of_le_of_lt hMle hplt)
        rw [List.findIdx_cons]
        simp only [List.map_cons, List.foldl_cons, decide_eq_false hne,
          cond_false]
        rw [hrec]
        simp only [hminq]
        omega
      · push_neg at himp
        have hall : ∀ p ∈ qs, dist2 last q ≤ dist2 last p := himp
        have hstop := scanLoop_no_improve last qs (i + 1) i (dist2 last q) hall
        rw [hstop]
        have hM : (qs.map (dist2 last)).foldl min (dist2 last q) =
            dist2 last q :=
          foldl_min_of_le _ _ (by
            intro x hx
            rcases List.mem_map.mp hx with ⟨p, hp, rfl⟩
            exact hall p hp)
        have heq : dist2 last q =
            (qs.map (dist2 last)).foldl min (min bd (dist2 last q)) := by
          rw [hminq, hM]
        rw [List.findIdx_cons]
        simp only [List.map_cons, List.foldl_cons, decide_eq_true heq,
          cond_true]
        omega
    · rw [if_neg hq]
      have hwit : ∃ p ∈ qs, dist2 last p < bd := by
        rcases h with ⟨p, hp, hplt⟩
        rcases List.mem_cons.mp hp with rfl | hp
        · exact absurd hplt hq
        · exact ⟨p, hp, hplt⟩
      have hrec := ih (i + 1) bi bd hwit
      have hminq : min bd (dist2 last q) = bd := min_eq_left (not_lt.mp hq)
      have hne : ¬ (dist2 last q =
          (qs.map (dist2 last)).foldl min (min bd (dist2 last q))) := by
        rcases hwit with ⟨p, hp, hplt⟩
        rw [hminq]
        have hMle : (qs.map (dist2 last)).foldl min bd ≤ dist2 last p :=
          foldl_min_le_mem _ _ _ (List.mem_map_of_mem (dist2 last) hp)
        exact ne_of_gt (lt_of_le_of_lt hMle (lt_of_lt_of_le hplt (not_lt.mp hq)))
      rw [List.findIdx_cons]
      simp only [List.map_cons, List.foldl_cons, decide_eq_false hne,
        cond_false]
      rw [hrec]
      simp only [hminq]
      omega

-- ---------------------------------------------------------------------------
-- The source loop refines the reference heuristic
-- ---------------------------------------------------------------------------

theorem scan_eq_findIdx (last r : RoutePoint) (rs : List RoutePoint) :
    (scanLoop last 1 0 (dist2 last r) rs).1 =
      (r :: rs).findIdx (fun q => decide (dist2 last q = minDist last r rs)) := by
  by_cases himp : ∃ q ∈ rs, dist2 last q < dist2 last r
  · have h1 := scanLoop_improve last rs 1 0 (dist2 last r) himp
    have hne : ¬ (dist2 last r =
        (rs.map (dist2 last)).foldl min (dist2 last r)) := by
      rcases himp with ⟨p, hp, hplt⟩
      have hle : (rs.map (dist2 last)).foldl min (dist2 last r) ≤ dist2 last p :=
        foldl_min_le_mem _ _ _ (List.mem_map_of_mem (dist2 last) hp)
      exact ne_of_gt (lt_of_le_of_lt hle hplt)
    rw [h1, List.findIdx_cons]
    simp only [minDist, decide_eq_false hne, cond_false]
    omega
  · push_neg at himp
    have h1 := scanLoop_no_improve last rs 1 0 (dist2 last r) himp
    have heq : dist2 last r = minDist last r rs := by
      refine (foldl_min_of_le _ _ ?_).symm
      intro x hx
      rcases List.mem_map.mp hx with ⟨p, hp, rfl⟩
      exact himp p hp
    rw [h1, List.findIdx_cons]
    simp only [decide_eq_true heq, cond_true]

theorem scan_fst_lt_length (last r : RoutePoint) (rs : List RoutePoint) :
    (scanLoop last 1 0 (dist2 last r) rs).1 < (r :: rs).length := by
  have h := scanLoop_fst_lt last rs 1 0 (dist2 last r) Nat.zero_lt_one
  simpa [Nat.add_comm] using h

theorem refTourAux_nil (k : Nat) (last : RoutePoint) :
    refTourAux k last [] = [] := by
  cases k <;> rfl

theorem tourLoop_eq_ref :
    ∀ (fuel : Nat) (rem ordered : List RoutePoint) (last : RoutePoint),
      ordered.getLast? = some last → rem.length ≤ fuel →
      tourLoop fuel ordered rem =
        ordered ++ refTourAux (TOUR_MAX - ordered.length) last rem := by
  intro fuel
  induction fuel with
  | zero =>
    intro rem ordered last hlast hlen
    have hnil : rem = [] := List.length_eq_zero.mp (Nat.le_zero.mp hlen)
    subst hnil
    rw [refTourAux_nil]
    simp [tourLoop]
  | succ f ih =>
    intro rem ordered last hlast hlen
    cases rem with
    | nil => rw [refTourAux_nil]; simp [tourLoop]
    | cons r rs =>
      by_cases h8 : TOUR_MAX ≤ ordered.length
      · rw [Nat.sub_eq_zero_of_le h8]
        rw [tourLoop, if_pos h8]
        simp [refTourAux]
      · have hlt : ordered.length < TOUR_MAX := lt_of_not_ge h8
        have hbi : (scanLoop last 1 0 (dist2 last r) rs).1 < (r :: rs).length :=
          scan_fst_lt_length last r rs
        have hget : (r :: rs)[(scanLoop last 1 0 (dist2 last r) rs).1]? =
            some ((r :: rs).get ⟨(scanLoop last 1 0 (dist2 last r) rs).1, hbi⟩) :=
          List.getElem?_eq_getElem hbi
        rw [tourLoop, if_neg h8, hlast]
        simp only [hget]
        have hstep : refStep last (r :: rs) =
            some ((r :: rs).get ⟨(scanLoop last 1 0 (dist2 last r) rs).1, hbi⟩,
              (r :: rs).eraseIdx (scanLoop last 1 0 (dist2 last r) rs).1) := by
          rw [refStep]
          simp only [← scan_eq_findIdx last r rs, hget]
        have hlen2 : ((r :: rs).eraseIdx
            (scanLoop last 1 0 (dist2 last r) rs).1).length ≤ f := by
          rw [List.length_eraseIdx]
          simp only [hbi, if_pos]
          simpa using Nat.le_of_succ_le_succ (by simpa using hlen)
        have hlast2 : (ordered ++
            [(r :: rs).get ⟨(scanLoop last 1 0 (dist2 last r) rs).1, hbi⟩]).getLast? =
            some ((r :: rs).get ⟨(scanLoop last 1 0 (dist2 last r) rs).1, hbi⟩) := by
          simp
        rw [ih _ _ _ hlast2 hlen2]
        have hsub : TOUR_MAX - ordered.length =
            (TOUR_MAX - (ordered.length + 1)) + 1 := by omega
        rw [hsub, refTourAux, hstep]
        simp [List.append_assoc]

theorem pointsOf_eq_refCandidates {γ : Type} (db : Db γ)
    (zone_id uid agency_id : Int) :
    pointsOf db zone_id uid agency_id = refCandidates db zone_id uid agency_id := by
  rw [pointsOf, rowsOf, refCandidates, List.filterMap_map]
  rfl

theorem refTourAux_length :
    ∀ (k : Nat) (last : RoutePoint) (rem : List RoutePoint),
      (refTourAux k last rem).length ≤ min k rem.length := by
  intro k
  induction k with
  | zero => intro last rem; simp [refTourAux]
  | succ f ih =>
    intro last rem
    cases rem with
    | nil => rw [refTourAux_nil]; simp
    | cons r rs =>
      rw [refTourAux]
      simp only [refStep]
      cases hg : (r :: rs)[(r :: rs).findIdx
          (fun q => decide (dist2 last q = minDist last r rs))]? with
      | none => simp
      | some b =>
        have hj : (r :: rs).findIdx
            (fun q => decide (dist2 last q = minDist last r rs)) <
            (r :: rs).length := by
          by_contra hcon
          rw [List.getElem?_eq_none (le_of_not_lt hcon)] at hg
          exact Option.noConfusion hg
        have hj2 : (r :: rs).findIdx
            (fun q => decide (dist2 last q = minDist last r rs)) <
            rs.length + 1 := by
          simpa using hj
        have hlen : ((r :: rs).eraseIdx ((r :: rs).findIdx
            (fun q => decide (dist2 last q = minDist last r rs)))).length =
            rs.length := by
          rw [List.length_eraseIdx]
          simp [hj2]
        have hrec := ih b ((r :: rs).eraseIdx ((r :: rs).findIdx
          (fun q => decide (dist2 last q = minDist last r rs))))
        rw [hlen] at hrec
        simp only [List.length_cons]
        omega

-- ---------------------------------------------------------------------------
-- Claim theorems
-- ---------------------------------------------------------------------------

/-- C3: an agent that exists but has no micro-territory gets an empty result
from both the visibility resolver (`GET /dpe`) and the tour builder
(`POST /route/auto`), whatever the agency's region, the overlay and the
catalog contain: the check short-circuits before any filter runs. -/
theorem no_territory_empty {γ : Type} (db : Db γ) (uid : Int) (u : User)
    (hu : findUser db uid = some u)
    (ht : _user_has_territory db uid = false) :
    get_dpe db (some uid) = .ok [] ∧
    route_auto db (some uid) =
      .ok { target_ids_ordered := [], polyline := none } := by
  have ha : _get_user_agency db uid = .ok u.agency_id := by
    rw [_get_user_agency, hu]
  constructor
  · simp [get_dpe, _resolve_user_id, ha, ht]
  · simp [route_auto, _resolve_user_id, ha, ht]

/-- C4: the status mutator (`POST /dpe/{id}/status`) rejects with
`InvalidArgument` (HTTP 400) a status outside the four defined values
(`non_traite`, `done`, `ignore`, `done_repasser`), and rejects
`done_repasser` without a follow-up timestamp; in both cases it returns the
error instead of coercing or defaulting, and the state is unchanged. -/
theorem status_validation {γ : Type} (db : Db γ) (dpe_id : Int)
    (payload : DpeStatusUpdate) (user_id : Option Int) (now : Int) :
    (allowedStatuses.contains payload.status = false →
      update_dpe_status db dpe_id payload user_id now =
        (db, .error (.badRequest "Statut invalide"))) ∧
    (payload.status = "done_repasser" → payload.next_action_at = none →
      update_dpe_status db dpe_id payload user_id now =
        (db, .error (.badRequest "next_action_at requis pour done_repasser"))) := by
  constructor
  · intro h
    have hc : ¬ allowedStatuses.contains payload.status = true := by
      rw [h]; exact Bool.false_ne_true
    rw [update_dpe_status, if_pos hc]
  · intro hs hn
    have hc : ¬¬ allowedStatuses.contains payload.status = true := by
      rw [hs]; decide
    have hc2 : (payload.status == "done_repasser" &&
        payload.next_action_at.isNone) = true := by
      rw [hs, hn]; decide
    rw [update_dpe_status, if_neg hc, if_pos hc2]

/-- C5: a well-formed status update aimed at an (agency, target) pair that
has no overlay row fails with `NotFound` (HTTP 404) and leaves the state
unchanged: no overlay row is ever created implicitly. -/
theorem overlay_missing_not_found {γ : Type} (db : Db γ) (dpe_id : Int)
    (payload : DpeStatusUpdate) (user_id : Option Int) (now : Int) (u : User)
    (hu : findUser db (_resolve_user_id user_id) = some u)
    (hvalid : allowedStatuses.contains payload.status = true)
    (hfollow : payload.status = "done_repasser" → payload.next_action_at ≠ none)
    (hmiss : ∀ ov ∈ db.agency_targets,
      ¬(ov.agency_id = u.agency_id ∧ ov.dpe_target_id = dpe_id)) :
    update_dpe_status db dpe_id payload user_id now =
      (db, .error (.notFound "Target absent de l'overlay agence")) := by
  have ha : _get_user_agency db (_resolve_user_id user_id) = .ok u.agency_id := by
    rw [_get_user_agency, hu]
  have h2 : (payload.status == "done_repasser" &&
      payload.next_action_at.isNone) = false := by
    by_cases hs : payload.status = "done_repasser"
    · cases hna : payload.next_action_at with
      | none => exact absurd hna (hfollow hs)
      | some v => simp [hna]
    · simp [hs]
  have hfil : db.agency_targets.filter
      (fun ov => ov.agency_id == u.agency_id && ov.dpe_target_id == dpe_id) =
      [] := by
    rw [List.filter_eq_nil_iff]
    intro ov hov
    have := hmiss ov hov
    simp only [Bool.and_eq_true, beq_iff_eq]
    tauto
  have hc1 : ¬¬ allowedStatuses.contains payload.status = true := by
    simpa using hvalid
  have hc2 : ¬ (payload.status == "done_repasser" &&
      payload.next_action_at.isNone) = true := by
    rw [h2]; exact Bool.false_ne_true
  rw [update_dpe_status, if_neg hc1, if_neg hc2, ha]
  simp only [hfil]
  rfl

/-- C6: after a successful status update, the matching overlay rows of the
new state carry the new status, and their follow-up timestamp is the
supplied one exactly when the status is `done_repasser`, and absent
otherwise, even when the caller supplied one. -/
theorem status_update_clears_followup {γ : Type} (db db' : Db γ)
    (dpe_id : Int) (payload : DpeStatusUpdate) (user_id : Option Int)
    (now : Int) (resp : StatusResp) (u : User)
    (hu : findUser db (_resolve_user_id user_id) = some u)
    (h : update_dpe_status db dpe_id payload user_id now = (db', .ok resp)) :
    ∀ ov ∈ db'.agency_targets,
      ov.agency_id = u.agency_id → ov.dpe_target_id = dpe_id →
        ov.status = payload.status ∧
        ov.next_action_at =
          (if payload.status = "done_repasser" then payload.next_action_at
           else none) := by
  have ha : _get_user_agency db (_resolve_user_id user_id) = .ok u.agency_id := by
    rw [_get_user_agency, hu]
  simp only [update_dpe_status, ha] at h
  by_cases hc1 : ¬ allowedStatuses.contains payload.status = true
  · rw [if_pos hc1] at h
    simp at h
  · rw [if_neg hc1] at h
    by_cases hc2 : (payload.status == "done_repasser" &&
        payload.next_action_at.isNone) = true
    · rw [if_pos hc2] at h
      simp at h
    · rw [if_neg hc2] at h
      by_cases hc3 : (db.agency_targets.filter (fun ov =>
          ov.agency_id == u.agency_id && ov.dpe_target_id == dpe_id)).isEmpty = true
      · rw [if_pos hc3] at h
        simp at h
      · rw [if_neg hc3] at h
        simp only [Prod.mk.injEq] at h
        obtain ⟨h1, _⟩ := h
        rw [← h1]
        intro ov hov hagency hdpe
        simp only [List.mem_map] at hov
        obtain ⟨a, hamem, hform⟩ := hov
        by_cases hhit : (a.agency_id == u.agency_id &&
            a.dpe_target_id == dpe_id) = true
        · rw [if_pos hhit] at hform
          subst hform
          refine ⟨rfl, ?_⟩
          by_cases hs : payload.status = "done_repasser" <;> simp [hs]
        · rw [if_neg hhit] at hform
          subst hform
          exact absurd (by simp [hagency, hdpe]) hhit

-- ---------------------------------------------------------------------------
-- Shape of the tour-builder result
-- ---------------------------------------------------------------------------

theorem route_auto_ok_of_found {γ : Type} (db : Db γ) (uid : Int) (u : User)
    (hu : findUser db uid = some u) :
    ∃ resp, route_auto db (some uid) = .ok resp := by
  have ha : _get_user_agency db uid = .ok u.agency_id := by
    rw [_get_user_agency, hu]
  simp only [route_auto, _resolve_user_id, ha]
  by_cases ht : _user_has_territory db uid = true
  · rw [if_pos ht]
    split
    · exact ⟨_, rfl⟩
    · split
      · exact ⟨_, rfl⟩
      · split
        · exact ⟨_, rfl⟩
        · exact ⟨_, rfl⟩
  · rw [if_neg ht]; exact ⟨_, rfl⟩

theorem route_auto_ok_shape {γ : Type} (db : Db γ) (user_id : Option Int)
    (resp : RouteResp) (h : route_auto db user_id = .ok resp) :
    resp = { target_ids_ordered := [], polyline := none } ∨
    ∃ points : List RoutePoint, resp = route_build points := by
  simp only [route_auto] at h
  cases hg : _get_user_agency db (_resolve_user_id user_id) with
  | error e => rw [hg] at h; simp at h
  | ok aid =>
    simp only [hg] at h
    by_cases ht : _user_has_territory db (_resolve_user_id user_id) = true
    · rw [if_pos ht] at h
      cases hz : _get_primary_agency_zone db aid with
      | none => simp only [hz] at h; left; exact (Except.ok.inj h).symm
      | some zid =>
        simp only [hz] at h
        by_cases hr : (rowsOf db zid (_resolve_user_id user_id) aid).isEmpty = true
        · rw [if_pos hr] at h; left; exact (Except.ok.inj h).symm
        · rw [if_neg hr] at h
          by_cases hp :
              (pointsOf db zid (_resolve_user_id user_id) aid).isEmpty = true
          · rw [if_pos hp] at h; left; exact (Except.ok.inj h).symm
          · rw [if_neg hp] at h; right; exact ⟨_, (Except.ok.inj h).symm⟩
    · rw [if_neg ht] at h; left; exact (Except.ok.inj h).symm

theorem route_build_shape (points : List RoutePoint) :
    ∃ pts : List RoutePoint,
      (route_build points).target_ids_ordered = pts.map (fun p => p.id) ∧
      (route_build points).polyline =
        (if 2 ≤ pts.length then
          some { geo_type := "LineString",
                 coordinates := pts.map (fun p => (p.lng, p.lat)) }
         else none) := by
  cases points with
  | nil =>
    refine ⟨[], by simp [route_build], ?_⟩
    simp [route_build]
  | cons p0 rest =>
    refine ⟨tourLoop rest.length [p0] rest, rfl, ?_⟩
    simp only [route_build, List.length_map]

-- ---------------------------------------------------------------------------
-- Claims C8 and C9
-- ---------------------------------------------------------------------------

/-- C8: whenever buildTour succeeds, the ordered id list and the polyline
come from one visiting sequence: the ids are the sequence's target ids, the
polyline is present exactly when the sequence has at least two stops, and
when present its vertices are the (longitude, latitude) pairs of the stops
in visiting order; a single-stop or empty tour has no polyline. -/
theorem path_presence_invariant {γ : Type} (db : Db γ) (user_id : Option Int)
    (resp : RouteResp) (h : route_auto db user_id = .ok resp) :
    ∃ pts : List RoutePoint,
      resp.target_ids_ordered = pts.map (fun p => p.id) ∧
      resp.polyline =
        (if 2 ≤ pts.length then
          some { geo_type := "LineString",
                 coordinates := pts.map (fun p => (p.lng, p.lat)) }
         else none) ∧
      (resp.polyline.isSome = true ↔ 2 ≤ resp.target_ids_ordered.length) := by
  rcases route_auto_ok_shape db user_id resp h with rfl | ⟨points, rfl⟩
  · exact ⟨[], by simp, by simp, by simp⟩
  · obtain ⟨pts, h1, h2⟩ := route_build_shape points
    refine ⟨pts, h1, h2, ?_⟩
    rw [h1, h2, List.length_map]
    by_cases hlen : 2 ≤ pts.length <;> simp [hlen]

/-- C9: buildTour raises a hard `NotFound` exactly when the agent does not
exist; an absent micro-territory, an unassigned region, an empty unprocessed
candidate pool, or a pool with no resolvable coordinates all yield the empty
result (empty id list, absent polyline) instead of an error. -/
theorem tour_failure_semantics {γ : Type} (db : Db γ) (uid : Int) :
    (findUser db uid = none →
      route_auto db (some uid) = .error (.notFound "User inconnu")) ∧
    (∀ e, route_auto db (some uid) = .error e →
      findUser db uid = none ∧ e = .notFound "User inconnu") ∧
    (∀ u, findUser db uid = some u → _user_has_territory db uid = false →
      route_auto db (some uid) =
        .ok { target_ids_ordered := [], polyline := none }) ∧
    (∀ u, findUser db uid = some u →
      _get_primary_agency_zone db u.agency_id = none →
      route_auto db (some uid) =
        .ok { target_ids_ordered := [], polyline := none }) ∧
    (∀ u zone_id, findUser db uid = some u →
      _get_primary_agency_zone db u.agency_id = some zone_id →
      routeQuery db zone_id uid u.agency_id = [] →
      route_auto db (some uid) =
        .ok { target_ids_ordered := [], polyline := none }) ∧
    (∀ u zone_id, findUser db uid = some u →
      _get_primary_agency_zone db u.agency_id = some zone_id →
      refCandidates db zone_id uid u.agency_id = [] →
      route_auto db (some uid) =
        .ok { target_ids_ordered := [], polyline := none }) := by
  refine ⟨?_, ?_, ?_, ?_, ?_, ?_⟩
  · intro hnone
    have ha : _get_user_agency db uid = .error (.notFound "User inconnu") := by
      rw [_get_user_agency, hnone]
    simp [route_auto, _resolve_user_id, ha]
  · intro e he
    cases hf : findUser db uid with
    | none =>
      have ha : _get_user_agency db uid = .error (.notFound "User inconnu") := by
        rw [_get_user_agency, hf]
      simp only [route_auto, _resolve_user_id, ha] at he
      exact ⟨rfl, (Except.error.inj he).symm⟩
    | some u =>
      obtain ⟨resp, hok⟩ := route_auto_ok_of_found db uid u hf
      rw [hok] at he
      simp at he
  · intro u hu ht
    have ha : _get_user_agency db uid = .ok u.agency_id := by
      rw [_get_user_agency, hu]
    simp [route_auto, _resolve_user_id, ha, ht]
  · intro u hu hz
    have ha : _get_user_agency db uid = .ok u.agency_id := by
      rw [_get_user_agency, hu]
    simp only [route_auto, _resolve_user_id, ha]
    by_cases ht : _user_has_territory db uid = true
    · rw [if_pos ht, hz]
    · rw [if_neg ht]
  · intro u zone_id hu hz hq
    have ha : _get_user_agency db uid = .ok u.agency_id := by
      rw [_get_user_agency, hu]
    have hrows : rowsOf db zone_id uid u.agency_id = [] := by
      rw [rowsOf, routePool, hq]
      rfl
    simp only [route_auto, _resolve_user_id, ha]
    by_cases ht : _user_has_territory db uid = true
    · rw [if_pos ht]
      simp only [hz]
      rw [if_pos (show (rowsOf db zone_id uid u.agency_id).isEmpty = true by
        rw [hrows]; rfl)]
    · rw [if_neg ht]
  · intro u zone_id hu hz hc
    have ha : _get_user_agency db uid = .ok u.agency_id := by
      rw [_get_user_agency, hu]
    have hpts : pointsOf db zone_id uid u.agency_id = [] := by
      rw [pointsOf_eq_refCandidates, hc]
    simp only [route_auto, _resolve_user_id, ha]
    by_cases ht : _user_has_territory db uid = true
    · rw [if_pos ht]
      simp only [hz]
      by_cases hr : (rowsOf db zone_id uid u.agency_id).isEmpty = true
      · rw [if_pos hr]
      · rw [if_neg hr, if_pos (show
          (pointsOf db zone_id uid u.agency_id).isEmpty = true by
            rw [hpts]; rfl)]
    · rw [if_neg ht]

theorem route_build_length_le (points : List RoutePoint) :
    (route_build points).target_ids_ordered.length ≤
      min TOUR_MAX points.length := by
  cases points with
  | nil => simp [route_build]
  | cons p0 rest =>
    simp only [route_build, List.length_map]
    rw [tourLoop_eq_ref rest.length rest [p0] p0 rfl le_rfl]
    have hb := refTourAux_length (TOUR_MAX - [p0].length) p0 rest
    simp only [List.length_append, List.length_cons, List.length_nil,
      TOUR_MAX] at *
    omega

theorem pointsOf_length_le {γ : Type} (db : Db γ)
    (zone_id uid agency_id : Int) :
    (pointsOf db zone_id uid agency_id).length ≤
      (routePool db zone_id uid agency_id).length := by
  rw [pointsOf]
  refine le_trans (List.length_filterMap_le _ _) ?_
  rw [rowsOf, List.length_map]

theorem route_build_eq_refResponse (points : List RoutePoint) :
    route_build points = refResponse points := by
  cases points with
  | nil => rfl
  | cons p0 rest =>
    simp only [route_build, refResponse, refTour]
    rw [tourLoop_eq_ref rest.length rest [p0] p0 rfl le_rfl]
    simp

/-- C2: buildTour's whole output is exactly the reference algorithm of the
spec: order the visible unprocessed targets descending by id, cap at
`POOL_MAX`, drop candidates without coordinates, seed with the first
candidate, then greedily append the candidate at minimal squared Euclidean
distance in (longitude, latitude) from the last stop, first-encountered
candidate winning ties, until the pool is exhausted or `TOUR_MAX` stops are
reached; the response carries this tour's ids in visiting order (with its
polyline when it has two or more stops). -/
theorem route_auto_matches_reference {γ : Type} (db : Db γ)
    (uid agency_id zone_id : Int)
    (ha : _get_user_agency db uid = .ok agency_id)
    (ht : _user_has_territory db uid = true)
    (hz : _get_primary_agency_zone db agency_id = some zone_id) :
    route_auto db (some uid) =
      .ok (refResponse (refCandidates db zone_id uid agency_id)) := by
  have hpts : pointsOf db zone_id uid agency_id =
      refCandidates db zone_id uid agency_id :=
    pointsOf_eq_refCandidates db zone_id uid agency_id
  simp only [route_auto, _resolve_user_id, ha]
  rw [if_pos ht]
  simp only [hz]
  by_cases hr : (rowsOf db zone_id uid agency_id).isEmpty = true
  · rw [if_pos hr]
    have hrows : rowsOf db zone_id uid agency_id = [] := by
      simpa using hr
    have hc : refCandidates db zone_id uid agency_id = [] := by
      rw [← hpts, pointsOf, hrows]
      rfl
    rw [hc]
    rfl
  · rw [if_neg hr]
    by_cases hp : (pointsOf db zone_id uid agency_id).isEmpty = true
    · rw [if_pos hp]
      have hc : refCandidates db zone_id uid agency_id = [] := by
        rw [← hpts]
        simpa using hp
      rw [hc]
      rfl
    · rw [if_neg hp]
      rw [route_build_eq_refResponse, hpts]

/-- C7: the ordered id list of a buildTour result never exceeds
`TOUR_MAX` stops, and never exceeds the size of the unprocessed visible
candidate pool capped at `POOL_MAX`. -/
theorem tour_length_invariant {γ : Type} (db : Db γ) (user_id : Option Int)
    (resp : RouteResp) (h : route_auto db user_id = .ok resp) :
    resp.target_ids_ordered.length ≤ TOUR_MAX ∧
    (∀ agency_id zone_id,
      _get_user_agency db (_resolve_user_id user_id) = .ok agency_id →
      _get_primary_agency_zone db agency_id = some zone_id →
      resp.target_ids_ordered.length ≤
        min TOUR_MAX
          (routePool db zone_id (_resolve_user_id user_id) agency_id).length) := by
  simp only [route_auto] at h
  cases hg : _get_user_agency db (_resolve_user_id user_id) with
  | error e => rw [hg] at h; simp at h
  | ok aid =>
    simp only [hg] at h
    by_cases ht : _user_has_territory db (_resolve_user_id user_id) = true
    · rw [if_pos ht] at h
      cases hz0 : _get_primary_agency_zone db aid with
      | none =>
        simp only [hz0] at h
        have hresp : resp = { target_ids_ordered := [], polyline := none } :=
          (Except.ok.inj h).symm
        subst hresp
        exact ⟨Nat.zero_le _, fun _ _ _ _ => Nat.zero_le _⟩
      | some zid =>
        simp only [hz0] at h
        by_cases hr : (rowsOf db zid (_resolve_user_id user_id) aid).isEmpty = true
        · rw [if_pos hr] at h
          have hresp : resp = { target_ids_ordered := [], polyline := none } :=
            (Except.ok.inj h).symm
          subst hresp
          exact ⟨Nat.zero_le _, fun _ _ _ _ => Nat.zero_le _⟩
        · rw [if_neg hr] at h
          by_cases hp :
              (pointsOf db zid (_resolve_user_id user_id) aid).isEmpty = true
          · rw [if_pos hp] at h
            have hresp : resp = { target_ids_ordered := [], polyline := none } :=
              (Except.ok.inj h).symm
            subst hresp
            exact ⟨Nat.zero_le _, fun _ _ _ _ => Nat.zero_le _⟩
          · rw [if_neg hp] at h
            have hresp : resp =
                route_build (pointsOf db zid (_resolve_user_id user_id) aid) :=
              (Except.ok.inj h).symm
            subst hresp
            have hlen :=
              route_build_length_le (pointsOf db zid (_resolve_user_id user_id) aid)
            constructor
            · exact le_trans hlen (min_le_left _ _)
            · intro agency_id zone_id ha' hz'
              have e1 : agency_id = aid := (Except.ok.inj ha').symm
              subst e1
              have e2 : zone_id = zid := by
                rw [hz0] at hz'
                exact (Option.some.inj hz').symm
              subst e2
              refine le_trans hlen ?_
              exact min_le_min le_rfl (pointsOf_length_le _ _ _ _)
    · rw [if_neg ht] at h
      have hresp : resp = { target_ids_ordered := [], polyline := none } :=
        (Except.ok.inj h).symm
      subst hresp
      exact ⟨Nat.zero_le _, fun _ _ _ _ => Nat.zero_le _⟩

-- ---------------------------------------------------------------------------
-- Claims C1 and C10
-- ---------------------------------------------------------------------------

theorem get_dpe_items_eq {γ : Type} (db : Db γ) (uid agency_id zone_id : Int)
    (items : List DpeItem)
    (ha : _get_user_agency db uid = .ok agency_id)
    (ht : _user_has_territory db uid = true)
    (hz : _get_primary_agency_zone db agency_id = some zone_id)
    (h : get_dpe db (some uid) = .ok items) :
    items = sortAscBy (fun r => r.id)
      ((dpeQuery db zone_id uid agency_id).map (fun p => dpeItemOf p.1 p.2)) := by
  simp only [get_dpe, _resolve_user_id, ha] at h
  rw [if_pos ht] at h
  simp only [hz] at h
  exact (Except.ok.inj h).symm

/-- C1: under a well-formed state (the zone row and the user row with the
looked-up ids are unique), `GET /dpe` returns exactly the catalog targets
whose footprint the agency region contains, whose footprint the agent's
micro-territory intersects, which satisfy the agent's optional surface
bounds, and which have an overlay row for the agency — each shaped into its
item with the agency's status — and the items are sorted ascending by
target id. -/
theorem get_dpe_visibility {γ : Type} (db : Db γ)
    (uid agency_id zone_id : Int) (z0 : Zone γ) (u0 : User)
    (items : List DpeItem)
    (ha : _get_user_agency db uid = .ok agency_id)
    (ht : _user_has_territory db uid = true)
    (hz : _get_primary_agency_zone db agency_id = some zone_id)
    (hzs : db.zones.filter (fun z => z.id == zone_id) = [z0])
    (hus : db.users.filter (fun v => v.id == uid) = [u0])
    (h : get_dpe db (some uid) = .ok items) :
    (∀ r, r ∈ items ↔
      ∃ t ∈ db.dpe_targets, ∃ ov ∈ db.agency_targets,
        ov.agency_id = agency_id ∧ t.id = ov.dpe_target_id ∧
        db.st_contains z0.geom t.geom = true ∧
        (∃ ut ∈ db.user_territories,
          ut.user_id = uid ∧ db.st_intersects ut.geom t.geom = true) ∧
        (u0.min_surface_m2 = none ∨
          ∃ s m, t.surface_m2 = some s ∧ u0.min_surface_m2 = some m ∧ m ≤ s) ∧
        (u0.max_surface_m2 = none ∨
          ∃ s m, t.surface_m2 = some s ∧ u0.max_surface_m2 = some m ∧ s ≤ m) ∧
        r = dpeItemOf t ov) ∧
    items.Pairwise (fun a b => a.id ≤ b.id) := by
  have hitems := get_dpe_items_eq db uid agency_id zone_id items ha ht hz h
  constructor
  · intro r
    rw [hitems, mem_sortAscBy, List.mem_map]
    constructor
    · rintro ⟨p, hp, rfl⟩
      rw [mem_dpeQuery] at hp
      obtain ⟨ov, hov, t, ht', z, hzm, v, hvm, hcond, hpair⟩ := hp
      subst hpair
      rw [visibleWhere_eq_true] at hcond
      obtain ⟨hc1, hc2, hc3, hc4, hc5, hc6, hc7⟩ := hcond
      have hz0 : z = z0 := (filter_singleton_mem hzs z).mp ⟨hzm, by simp [hc3]⟩
      have hv0 : v = u0 := (filter_singleton_mem hus v).mp ⟨hvm, by simp [hc4]⟩
      subst hz0
      subst hv0
      rw [surfaceFilter_eq_true] at hc7
      exact ⟨t, ht', ov, hov, hc1, hc2, hc5, hc6, hc7.1, hc7.2, rfl⟩
    · rintro ⟨t, ht', ov, hov, hc1, hc2, hc5, hc6, hmin, hmax, rfl⟩
      refine ⟨(t, ov), ?_, rfl⟩
      rw [mem_dpeQuery]
      have hz0 := (filter_singleton_mem hzs z0).mpr rfl
      have hu0 := (filter_singleton_mem hus u0).mpr rfl
      refine ⟨ov, hov, t, ht', z0, hz0.1, u0, hu0.1, ?_, rfl⟩
      rw [visibleWhere_eq_true]
      exact ⟨hc1, hc2, by simpa using hz0.2, by simpa using hu0.2, hc5, hc6,
        (surfaceFilter_eq_true u0 t.surface_m2).mpr ⟨hmin, hmax⟩⟩
  · rw [hitems]
    exact pairwise_sortAscBy _ _

theorem surfaceFilter_none_of_bound (u : User)
    (hb : u.min_surface_m2.isSome = true ∨ u.max_surface_m2.isSome = true) :
    surfaceFilter u none = false := by
  rcases hb with hb | hb
  · obtain ⟨m, hm⟩ := Option.isSome_iff_exists.mp hb
    simp [surfaceFilter, sqlGeQ, hm]
  · obtain ⟨m, hm⟩ := Option.isSome_iff_exists.mp hb
    simp [surfaceFilter, sqlLeQ, hm]

theorem surfaceFilter_no_bounds (u : User) (s : Option Rat)
    (h1 : u.min_surface_m2 = none) (h2 : u.max_surface_m2 = none) :
    surfaceFilter u s = true := by
  simp [surfaceFilter, h1, h2]

theorem routeQuery_surface {γ : Type} (db : Db γ)
    (zone_id uid agency_id : Int) (u0 : User)
    (hus : db.users.filter (fun v => v.id == uid) = [u0])
    (hb : u0.min_surface_m2.isSome = true ∨ u0.max_surface_m2.isSome = true) :
    ∀ p ∈ routeQuery db zone_id uid agency_id, p.1.surface_m2.isSome = true := by
  intro p hp
  rw [mem_routeQuery] at hp
  obtain ⟨ov, hov, t, ht', z, hzm, v, hvm, hcond, hst, hpair⟩ := hp
  subst hpair
  rw [visibleWhere_eq_true] at hcond
  obtain ⟨_, _, _, hc4, _, _, hc7⟩ := hcond
  have hv0 : v = u0 := (filter_singleton_mem hus v).mp ⟨hvm, by simp [hc4]⟩
  rw [hv0] at hc7
  cases hs : t.surface_m2 with
  | none =>
    rw [hs, surfaceFilter_none_of_bound u0 hb] at hc7
    exact absurd hc7 Bool.false_ne_true
  | some s => simp [hs]

theorem get_dpe_surface {γ : Type} (db : Db γ) (uid : Int) (u0 : User)
    (items : List DpeItem)
    (hus : db.users.filter (fun v => v.id == uid) = [u0])
    (hb : u0.min_surface_m2.isSome = true ∨ u0.max_surface_m2.isSome = true)
    (h : get_dpe db (some uid) = .ok items) :
    ∀ r ∈ items, r.surface.isSome = true := by
  intro r hr
  simp only [get_dpe, _resolve_user_id] at h
  cases hg : _get_user_agency db uid with
  | error e => rw [hg] at h; simp at h
  | ok aid =>
    simp only [hg] at h
    by_cases ht : _user_has_territory db uid = true
    · rw [if_pos ht] at h
      cases hz : _get_primary_agency_zone db aid with
      | none =>
        simp only [hz] at h
        have hnil : items = [] := (Except.ok.inj h).symm
        subst hnil
        simp at hr
      | some zid =>
        simp only [hz] at h
        have hitems : items = sortAscBy (fun r => r.id)
            ((dpeQuery db zid uid aid).map (fun p => dpeItemOf p.1 p.2)) :=
          (Except.ok.inj h).symm
        subst hitems
        rw [mem_sortAscBy, List.mem_map] at hr
        obtain ⟨p, hp, hform⟩ := hr
        subst hform
        rw [mem_dpeQuery] at hp
        obtain ⟨ov, hov, t, ht', z, hzm, v, hvm, hcond, hpair⟩ := hp
        subst hpair
        rw [visibleWhere_eq_true] at hcond
        obtain ⟨_, _, _, hc4, _, _, hc7⟩ := hcond
        have hv0 : v = u0 := (filter_singleton_mem hus v).mp ⟨hvm, by simp [hc4]⟩
        rw [hv0] at hc7
        cases hs : t.surface_m2 with
        | none =>
          rw [hs, surfaceFilter_none_of_bound u0 hb] at hc7
          exact absurd hc7 Bool.false_ne_true
        | some s => simp [dpeItemOf, hs]
    · rw [if_neg ht] at h
      have hnil : items = [] := (Except.ok.inj h).symm
      subst hnil
      simp at hr

/-- C10: when the agent has a min- or max-surface bound, a target whose
surface is NULL fails the surface filter and so is excluded both from
`GET /dpe` results and from the tour builder's candidate query, even when
every geometric and overlay condition holds; with no bounds set, the
surface filter never excludes a NULL-surface target. -/
theorem null_surface_exclusion :
    (∀ (u : User) (s : Option Rat),
      (u.min_surface_m2.isSome = true ∨ u.max_surface_m2.isSome = true) →
      s = none → surfaceFilter u s = false) ∧
    (∀ (u : User) (s : Option Rat),
      u.min_surface_m2 = none → u.max_surface_m2 = none →
      surfaceFilter u s = true) ∧
    (∀ (γ : Type) (db : Db γ) (uid : Int) (u0 : User) (items : List DpeItem),
      db.users.filter (fun v => v.id == uid) = [u0] →
      (u0.min_surface_m2.isSome = true ∨ u0.max_surface_m2.isSome = true) →
      get_dpe db (some uid) = .ok items →
      ∀ r ∈ items, r.surface.isSome = true) ∧
    (∀ (γ : Type) (db : Db γ) (zone_id uid agency_id : Int) (u0 : User),
      db.users.filter (fun v => v.id == uid) = [u0] →
      (u0.min_surface_m2.isSome = true ∨ u0.max_surface_m2.isSome = true) →
      ∀ p ∈ routeQuery db zone_id uid agency_id,
        p.1.surface_m2.isSome = true) := by
  refine ⟨?_, ?_, ?_, ?_⟩
  · intro u s hb hs
    subst hs
    exact surfaceFilter_none_of_bound u hb
  · intro u s h1 h2
    exact surfaceFilter_no_bounds u s h1 h2
  · intro γ db uid u0 items hus hb h
    exact get_dpe_surface db uid u0 items hus hb h
  · intro γ db zone_id uid agency_id u0 hus hb
    exact routeQuery_surface db zone_id uid agency_id u0 hus hb

-- ---------------------------------------------------------------------------
-- Witnesses: each claim theorem evaluated at the example state
-- ---------------------------------------------------------------------------

/-- Witness for C1 on the example state. -/
theorem get_dpe_visibility_witness :
    (∀ r, r ∈ exItems ↔
      ∃ t ∈ exDb.dpe_targets, ∃ ov ∈ exDb.agency_targets,
        ov.agency_id = 10 ∧ t.id = ov.dpe_target_id ∧
        exDb.st_contains exZone.geom t.geom = true ∧
        (∃ ut ∈ exDb.user_territories,
          ut.user_id = 1 ∧ exDb.st_intersects ut.geom t.geom = true) ∧
        (exUser.min_surface_m2 = none ∨
          ∃ s m, t.surface_m2 = some s ∧
            exUser.min_surface_m2 = some m ∧ m ≤ s) ∧
        (exUser.max_surface_m2 = none ∨
          ∃ s m, t.surface_m2 = some s ∧
            exUser.max_surface_m2 = some m ∧ s ≤ m) ∧
        r = dpeItemOf t ov) ∧
    exItems.Pairwise (fun a b => a.id ≤ b.id) :=
  get_dpe_visibility exDb 1 10 5 exZone exUser exItems rfl rfl rfl rfl rfl rfl

/-- Witness for C2 on the example state. -/
theorem route_auto_matches_reference_witness :
    route_auto exDb (some 1) = .ok (refResponse (refCandidates exDb 5 1 10)) :=
  route_auto_matches_reference exDb 1 10 5 rfl rfl rfl

/-- Witness for C3 on the example state without a micro-territory. -/
theorem no_territory_empty_witness :
    get_dpe exDbNoTerr (some 1) = .ok [] ∧
    route_auto exDbNoTerr (some 1) =
      .ok { target_ids_ordered := [], polyline := none } :=
  no_territory_empty exDbNoTerr 1 exUser rfl rfl

/-- Witness for C4: an undefined status value is rejected. -/
theorem status_validation_witness :
    update_dpe_status exDb 1 { status := "bogus", next_action_at := none }
      (some 1) 7 = (exDb, .error (.badRequest "Statut invalide")) :=
  (status_validation exDb 1 { status := "bogus", next_action_at := none }
    (some 1) 7).1 rfl

/-- Witness for C5: a valid update on a pair with no overlay row. -/
theorem overlay_missing_not_found_witness :
    update_dpe_status exDb 99 { status := "done", next_action_at := none }
      (some 1) 7 = (exDb, .error (.notFound "Target absent de l'overlay agence")) :=
  overlay_missing_not_found exDb 99 { status := "done", next_action_at := none }
    (some 1) 7 exUser rfl rfl (fun hs => absurd hs (by decide)) (by decide)

/-- Witness for C6: after marking target 1 done with a supplied timestamp,
the stored follow-up timestamp of its overlay row is absent. -/
theorem status_update_clears_followup_witness :
    ({ agency_id := 10, dpe_target_id := 1, status := "done"
       next_action_at := none, updated_at := 7 } : AgencyTarget).status =
      "done" ∧
    ({ agency_id := 10, dpe_target_id := 1, status := "done"
       next_action_at := none, updated_at := 7 } : AgencyTarget).next_action_at =
      (if ("done" : String) = "done_repasser" then some 99 else none) :=
  status_update_clears_followup exDb exDbAfter 1
    { status := "done", next_action_at := some 99 } (some 1) 7
    { id := 1, status := "done", next_action_at := none } exUser rfl rfl
    { agency_id := 10, dpe_target_id := 1, status := "done"
      next_action_at := none, updated_at := 7 }
    (by decide) rfl rfl

/-- Witness for C7 on the example state. -/
theorem tour_length_invariant_witness :
    exResp.target_ids_ordered.length ≤ TOUR_MAX ∧
    (∀ agency_id zone_id,
      _get_user_agency exDb (_resolve_user_id (some 1)) = .ok agency_id →
      _get_primary_agency_zone exDb agency_id = some zone_id →
      exResp.target_ids_ordered.length ≤
        min TOUR_MAX
          (routePool exDb zone_id (_resolve_user_id (some 1)) agency_id).length) :=
  tour_length_invariant exDb (some 1) exResp rfl

/-- Witness for C8 on the example state. -/
theorem path_presence_invariant_witness :
    ∃ pts : List RoutePoint,
      exResp.target_ids_ordered = pts.map (fun p => p.id) ∧
      exResp.polyline =
        (if 2 ≤ pts.length then
          some { geo_type := "LineString",
                 coordinates := pts.map (fun p => (p.lng, p.lat)) }
         else none) ∧
      (exResp.polyline.isSome = true ↔ 2 ≤ exResp.target_ids_ordered.length) :=
  path_presence_invariant exDb (some 1) exResp rfl

/-- Witness for C9: an unknown agent is a hard `NotFound`. -/
theorem tour_failure_semantics_witness :
    route_auto exDbNoUser (some 1) = .error (.notFound "User inconnu") :=
  (tour_failure_semantics exDbNoUser 1).1 rfl

/-- Witness for C10: with a min-surface bound, a NULL surface fails the
surface filter. -/
theorem null_surface_exclusion_witness :
    surfaceFilter exUserBound none = false :=
  null_surface_exclusion.1 exUserBound none (Or.inl rfl) rfl
